import Mathlib

/-!
Shallow embedding of the TheRugScopeBot risk-analysis core and proofs of the
frozen specification claims.  Machine floats are modelled as rationals (ℚ);
Python dictionaries with optional keys are modelled as association lists or
explicit arguments; the Python `round(x, n)` builtin is modelled by
round-half-to-even on rationals.
-/

/-- Python `round` rounds half to even (banker rounding). -/
def roundHalfToEven (x : ℚ) : ℤ :=
  let f : ℤ := ⌊x⌋
  let r : ℚ := x - f
  if r < 1/2 then f
  else if 1/2 < r then f + 1
  else if Even f then f else f + 1

/-- Python `round(x, ndigits)` on a rational-modelled float. -/
def pyRound (ndigits : ℕ) (x : ℚ) : ℚ :=
  let m : ℚ := (10 : ℚ) ^ ndigits
  (roundHalfToEven (x * m) : ℚ) / m

/-! ## Concentration Scorer — `token_analyzer.calculate_supply_score` -/

structure ScoreResult where
  score : ℚ
  status : String
  top1_percent : ℚ
  top10_percent : ℚ
  gini_proxy : ℚ
  hhi_estimate : ℚ
  deriving DecidableEq, Repr

/-- The sequential if/elif penalty tiers of
`token_analyzer.calculate_supply_score` (src/token_analyzer.py, lines 17–36):
the running score after the top-1, top-10 and holder-count groups. -/
def supplyPenaltyScore (largest_wallet_percent top10_percent : ℚ)
    (total_holders : ℕ) : ℚ :=
  let score0 : ℚ := 100
  -- 1. top-1 wallet penalties
  let score1 :=
    if largest_wallet_percent > 40 then score0 - 60
    else if largest_wallet_percent > 20 then score0 - 40
    else if largest_wallet_percent > 10 then score0 - 20
    else if largest_wallet_percent > 5 then score0 - 10
    else score0
  -- 2. top-10 wallet penalties
  let score2 :=
    if top10_percent > 60 then score1 - 50
    else if top10_percent > 50 then score1 - 40
    else if top10_percent > 35 then score1 - 30
    else if top10_percent ≥ 20 then score1 - 20
    else score1
  -- 3. holder-count penalty
  if total_holders > 0 then
    if total_holders < 100 then score2 - 20
    else if total_holders < 500 then score2 - 10
    else if total_holders > 2000 then score2 + 5
    else score2
  else score2

/-- Embedding of `token_analyzer.calculate_supply_score` (src/token_analyzer.py,
lines 7–60): penalty tiers, HHI-proxy metric, clamp to [0,100], status from the
clamped score. -/
def calculate_supply_score (largest_wallet_percent top10_percent : ℚ)
    (total_holders : ℕ) : ScoreResult :=
  let score3 := supplyPenaltyScore largest_wallet_percent top10_percent total_holders
  -- 4. HHI proxy
  let remaining := max 0 (top10_percent - largest_wallet_percent)
  let avg_rem := if remaining > 0 then remaining / 9 else 0
  let hhi := largest_wallet_percent ^ 2 + 9 * avg_rem ^ 2
  -- 5. normalisation and status
  let score4 := max 0 (min 100 score3)
  let status :=
    if score4 ≥ 85 then "Healthy Distribution"
    else if score4 ≥ 65 then "Moderate Concentration"
    else if score4 ≥ 40 then "High Concentration"
    else "Critical Centralization"
  { score := pyRound 2 score4
    status := status
    top1_percent := pyRound 2 largest_wallet_percent
    top10_percent := pyRound 2 top10_percent
    gini_proxy := pyRound 4 (largest_wallet_percent / 100)
    hhi_estimate := pyRound 2 hhi }

/-- Stated from the wording of the spec for claim C3: penalty of the first matching
top-1 tier. -/
def specPen1 (top1 : ℚ) : ℚ :=
  if top1 > 40 then 60 else if top1 > 20 then 40
  else if top1 > 10 then 20 else if top1 > 5 then 10 else 0

/-- Stated from the wording of the spec for claim C3: penalty of the first matching
top-10 tier. -/
def specPen10 (top10 : ℚ) : ℚ :=
  if top10 > 60 then 50 else if top10 > 50 then 40
  else if top10 > 35 then 30 else if top10 ≥ 20 then 20 else 0

/-- Stated from the wording of the spec for claim C3: penalty (negative = bonus) of the
first matching holder-count tier, applied only when the count is known. -/
def specPenH (holders : ℕ) : ℚ :=
  if holders > 0 then
    if holders < 100 then 20 else if holders < 500 then 10
    else if holders > 2000 then -5 else 0
  else 0

/-- Stated from the wording of the spec for claim C3: the three penalty groups, each
applying only its first matching tier.  To be compared with the source
embedding `calculate_supply_score`. -/
def supplyScoreSpecRaw (top1 top10 : ℚ) (holders : ℕ) : ℚ :=
  100 - specPen1 top1 - specPen10 top10 - specPenH holders

/-- Stated from the wording of the spec for claim C3: clamp to [0,100]. -/
def supplyScoreSpecClamped (top1 top10 : ℚ) (holders : ℕ) : ℚ :=
  max 0 (min 100 (supplyScoreSpecRaw top1 top10 holders))

/-- Stated from the wording of the spec for claim C3: status of the clamped score. -/
def supplyStatusSpec (clamped : ℚ) : String :=
  if clamped ≥ 85 then "Healthy Distribution"
  else if clamped ≥ 65 then "Moderate Concentration"
  else if clamped ≥ 40 then "High Concentration"
  else "Critical Centralization"

/-! ## Verdict Synthesizer — `behavior_verdict.generate_behavior_verdict` -/

structure BehaviorVerdict where
  risk_score : ℚ
  risk_intensity : String
  verdict_label : String
  verdict_description : String
  correlation_verdict : String
  deriving DecidableEq, Repr

/-- The raw (pre-clamp) risk score, the accumulated rationale sentences and the
correlation verdict of `behavior_verdict.generate_behavior_verdict`
(src/behavior_verdict.py, lines 17–83), before the scoring/labelling step. -/
def behaviorAccumulate (distribution_status pressure : String)
    (bundle_detected : Bool) (net_flow_percent_supply slope price_change_1h : ℚ) :
    ℚ × List String × String :=
  -- 1. structural risk (max 40)
  let s1 : ℚ × List String :=
    if distribution_status = "Critical Centralization" then
      (40, ["Extreme centralization."])
    else if distribution_status = "High Concentration" then
      (30, ["High holder concentration."])
    else if distribution_status = "Moderate Concentration" then (15, [])
    else (0, [])
  -- 2. whale & bundle risk (max 50)
  let s2 : ℚ × List String :=
    if bundle_detected then
      (s1.1 + 50, s1.2 ++ ["🚨 INSIDER BUNDLE DETECTED."])
    else s1
  let s3 : ℚ × List String :=
    if pressure = "Strong Distribution" then
      (s2.1 + 25, s2.2 ++ ["Whales dumping."])
    else if pressure = "Distribution" then (s2.1 + 15, s2.2)
    else s2
  -- 3. dominance risk (max 20)
  let s4 : ℚ × List String :=
    if slope > 1/2 then (s3.1 + 20, s3.2 ++ ["Top holder accumulating fast."])
    else s3
  -- 4. price correlation (causality)
  let corr : String × ℚ × List String :=
    if price_change_1h > 2 then
      if net_flow_percent_supply > 1/10 then ("🐳 Whale Driven Pump", 0, [])
      else if net_flow_percent_supply < -(1/10) then
        ("⚠️ Divergence: Whales Selling into Pump", 25,
          ["Exit liquidity trap detected."])
      else ("👥 Organic/Retail Rally", 0, [])
    else if price_change_1h < -2 then
      if net_flow_percent_supply < -(1/10) then ("📉 Whale Driven Dump", 10, [])
      else if net_flow_percent_supply > 1/10 then
        ("🧠 Whales Absorbing the Dip", -15, ["Smart money buying the dip."])
      else ("😨 Retail Panic Sell", 0, [])
    else ("Neutral / Low Volatility", 0, [])
  (s4.1 + corr.2.1, s4.2 ++ corr.2.2, corr.1)

/-- Embedding of `behavior_verdict.generate_behavior_verdict`
(src/behavior_verdict.py, lines 6–109).  The dictionary arguments are passed as
their relevant fields (`whale_data["pressure"]`, `whale_data["bundle_detected"]`,
`whale_data["net_flow_percent_supply"]`, `dominance_data["slope"]`,
`price_data["price_change_1h"]`, each defaulting as in the `.get` calls of the source). -/
def generate_behavior_verdict (distribution_status pressure : String)
    (bundle_detected : Bool) (net_flow_percent_supply slope price_change_1h : ℚ) :
    BehaviorVerdict :=
  let acc := behaviorAccumulate distribution_status pressure bundle_detected
    net_flow_percent_supply slope price_change_1h
  let risk_score := min 100 (max 0 acc.1)
  let li : String × String :=
    if risk_score ≥ 80 then ("⛔ HIGH RUG RISK", "Critical")
    else if risk_score ≥ 50 then ("🟠 CAUTION ADVISED", "High")
    else if risk_score ≥ 25 then ("🟡 MODERATE RISK", "Medium")
    else ("🟢 STABLE / HEALTHY", "Low")
  let full_desc :=
    if acc.2.1 = [] then "No major anomalies detected."
    else String.intercalate " " acc.2.1
  { risk_score := pyRound 2 risk_score
    risk_intensity := li.2
    verdict_label := li.1
    verdict_description := full_desc
    correlation_verdict := acc.2.2 }

/-! ## Whale Flow & Funding-Trace Engine — `whale_engine.WhaleEngine` -/

/-- Funding-trace outcome of `WhaleEngine._find_funding_source`
(src/whale_engine.py, lines 75–116): a real funder address, the
`Established_User` / `Self_Funded` sentinel strings, or `None` (Unknown). -/
inductive FundingTrace where
  | realFunder (addr : String)
  | establishedUser
  | selfFunded
  | unknown
  deriving DecidableEq, Repr

/-- The list comprehension of src/whale_engine.py line 164: keep only real
funder addresses, dropping `None` and the two sentinel strings. -/
def suspectFunders (funders : List FundingTrace) : List String :=
  funders.filterMap fun t =>
    match t with
    | .realFunder a => some a
    | _ => none

/-- Keys of a Python `Counter` built from `l`, in first-insertion order. -/
def counterKeys (l : List String) : List String :=
  l.foldl (fun acc a => if a ∈ acc then acc else acc ++ [a]) []

/-- One step of selecting the key of maximal multiplicity: keep the running
best unless the next key counts strictly higher. -/
def mcStep (l : List String) (best : Option (String × ℕ)) (k : String) :
    Option (String × ℕ) :=
  match best with
  | none => some (k, l.count k)
  | some p => if l.count k > p.2 then some (k, l.count k) else best

/-- `Counter(l).most_common(1)`: the first key (in insertion order) of maximal
multiplicity, with its count (src/whale_engine.py line 173). -/
def mostCommon (l : List String) : Option (String × ℕ) :=
  (counterKeys l).foldl (mcStep l) none

/-- The bundle-detection block of `WhaleEngine.calculate_whale_pressure`
(src/whale_engine.py, lines 162–179): (bundle_alert, bundle_size, main_funder)
from the funding traces of the sampled wallets. -/
def bundleOf (funders : List FundingTrace) : Bool × ℕ × String :=
  match mostCommon (suspectFunders funders) with
  | none => (false, 0, "None")
  | some (a, c) => (decide (c ≥ 2), c, a)

/-- A Python dict value appearing in the whale-engine result. -/
inductive Val where
  | s (v : String)
  | q (v : ℚ)
  | b (v : Bool)
  | n (v : ℕ)
  deriving DecidableEq, Repr

/-- `float(supply_val.get("uiAmount") or 1)` (src/whale_engine.py line 131):
a missing (`None`) or zero supply is replaced by 1. -/
def totalSupplyOf (uiAmount : Option ℚ) : ℚ :=
  match uiAmount with
  | none => 1
  | some v => if v = 0 then 1 else v

/-- Embedding of `WhaleEngine.calculate_whale_pressure`
(src/whale_engine.py, lines 118–192) as a function of the Gateway responses:
the supply `uiAmount` field (if present), the holder account addresses, and
oracles giving, for each wallet, the joined flow result (`_analyze_wallet_flow`) and
funding trace (`_find_funding_source`), plus the measured execution time.
The Python dict result is modelled as an association list so that the set of
returned keys is part of the value. -/
def calculate_whale_pressure (uiAmount : Option ℚ) (accounts : List String)
    (flowOf : String → ℚ) (funderOf : String → FundingTrace)
    (execTime : ℚ) : List (String × Val) :=
  let total_supply := totalSupplyOf uiAmount
  if accounts = [] then
    [("pressure", .s "Neutral"), ("bundle_detected", .b false)]
  else
    let top_wallets := accounts.take 7
    let flows := top_wallets.map flowOf
    let funders := top_wallets.map funderOf
    let net_flow := flows.sum
    let flow_percent := net_flow / total_supply * 100
    let pressure :=
      if flow_percent > 1/2 then "Strong Accumulation"
      else if flow_percent < -(1/2) then "Strong Distribution"
      else "Neutral"
    let bundle := bundleOf funders
    [("pressure", .s pressure),
     ("net_flow_percent_supply", .q (pyRound 4 flow_percent)),
     ("bundle_detected", .b bundle.1),
     ("bundle_size", .n bundle.2.1),
     ("main_funder", .s bundle.2.2),
     ("scanned_wallets", .n top_wallets.length),
     ("execution_time", .q (pyRound 2 execTime))]

/-- The `uiTokenAmount` field of a token-balance entry, as
`_analyze_wallet_flow` reads it via `b["uiTokenAmount"]["uiAmount"]`
(src/whale_engine.py lines 68–69): `raising` covers the malformed shapes on
which that double lookup raises (the key absent, or a non-dict value);
`nullAmount` is `uiAmount: null`, which `float(… or 0)` turns into 0;
`val` is a numeric amount. -/
inductive UiAmountField where
  | raising
  | nullAmount
  | val (q : ℚ)
  deriving DecidableEq, Repr

/-- One entry of `preTokenBalances` / `postTokenBalances`.  `owner = none`
(resp. `mint = none`) models an entry on which `b["owner"]` (resp.
`b["mint"]`) raises `KeyError`; note `b["mint"]` is only evaluated when the
owner matched, mirroring the short-circuit `and` of the source. -/
structure BalanceEntry where
  owner : Option String
  mint : Option String
  uiTokenAmount : UiAmountField
  deriving DecidableEq, Repr

/-- A `preTokenBalances` / `postTokenBalances` field of `meta`: absent
(`meta.get(…, [])` yields `[]`), present but `null` (iterating it raises
`TypeError`), or an actual list of entries. -/
inductive BalField where
  | absent
  | nullList
  | entries (l : List BalanceEntry)
  deriving DecidableEq, Repr

/-- The `meta` field of a `getTransaction` result: absent (the
`result.get("meta", {}).get("err")` guard passes and `result["meta"]` then
raises `KeyError`), present but `null` (`None.get("err")` raises
`AttributeError` in the guard), or a dict with its `err` truthiness and the
two balance lists. -/
inductive MetaField where
  | absent
  | null
  | meta (err : Bool) (pre post : BalField)
  deriving DecidableEq, Repr

/-- The `result` of one `getTransaction` response as `_analyze_wallet_flow`
sees it: `missing` models an empty/error RPC reply or `result: null`
(`if not result: continue`); otherwise the `meta` field is inspected. -/
inductive TxResult where
  | missing
  | result (m : MetaField)
  deriving DecidableEq, Repr

/-- The `next((float(b["uiTokenAmount"]["uiAmount"] or 0) for b in bs
if b["owner"] == wallet and b["mint"] == mint), 0.0)` extraction
(src/whale_engine.py lines 68–69): scan the entries in order, return the
amount of the first entry matching wallet and mint, defaulting to 0 when
none matches; a malformed entry reached by the scan raises. -/
def extractBalance (wallet mint : String) : List BalanceEntry → Except String ℚ
  | [] => .ok 0
  | b :: rest =>
    match b.owner with
    | none => .error "KeyError: owner"
    | some o =>
      if o = wallet then
        match b.mint with
        | none => .error "KeyError: mint"
        | some mi =>
          if mi = mint then
            match b.uiTokenAmount with
            | .raising => .error "KeyError: uiTokenAmount"
            | .nullAmount => .ok 0
            | .val q => .ok q
          else extractBalance wallet mint rest
      else extractBalance wallet mint rest

/-- Reading a balance-list field: an absent key defaults to `[]`, a `null`
value raises when iterated, a list is used as-is. -/
def getBalances : BalField → Except String (List BalanceEntry)
  | .absent => .ok []
  | .nullList => .error "TypeError: NoneType is not iterable"
  | .entries l => .ok l

/-- The body of one iteration of the `for sig in signatures[:5]` loop of
`WhaleEngine._analyze_wallet_flow` (src/whale_engine.py, lines 61–71): a
missing result or a failed (`meta.err`) transaction contributes 0
(`continue`); a null or absent `meta` and malformed balance data raise;
otherwise the contribution is post − pre. -/
def inspectTx (wallet mint : String) (r : TxResult) : Except String ℚ :=
  match r with
  | .missing => .ok 0
  | .result m =>
    match m with
    | .null => .error "AttributeError: NoneType has no attribute get"
    | .absent => .error "KeyError: meta"
    | .meta err pre post =>
      if err then .ok 0
      else
        match getBalances pre with
        | .error e => .error e
        | .ok preL =>
          match extractBalance wallet mint preL with
          | .error e => .error e
          | .ok preV =>
            match getBalances post with
            | .error e => .error e
            | .ok postL =>
              match extractBalance wallet mint postL with
              | .error e => .error e
              | .ok postV => .ok (postV - preV)

/-- Whether a fetched transaction passes the
`if not result or result.get("meta", {}).get("err"): continue` guard without
raising, i.e. is present with a non-failed `meta` dict
(src/whale_engine.py line 65). -/
def txOk (r : TxResult) : Bool :=
  match r with
  | .result (.meta false _ _) => true
  | _ => false

/-- The delta a transaction contributes under the reading of the frozen
claim, in which an unparseable transaction contributes 0 instead of
raising. -/
def inspectDelta (wallet mint : String) (r : TxResult) : ℚ :=
  match inspectTx wallet mint r with
  | .ok q => q
  | .error _ => 0

/-- The `net_change` accumulation loop of `_analyze_wallet_flow`
(src/whale_engine.py, lines 58–71): fold the inspected signatures
left-to-right, adding each contribution; the first raise aborts the loop
(and, propagated through `asyncio.gather`, the whole analysis). -/
def flowGo (wallet mint : String) (tx : String → TxResult) :
    ℚ → List String → Except String ℚ
  | acc, [] => .ok acc
  | acc, s :: rest =>
    match inspectTx wallet mint (tx s) with
    | .error e => .error e
    | .ok d => flowGo wallet mint tx (acc + d) rest

/-- Embedding of `WhaleEngine._analyze_wallet_flow`
(src/whale_engine.py, lines 48–73) as a function of the signature history of
the wallet (the Gateway returns its 15 most recent entries) and a
transaction oracle: iterate over the first 5 fetched signatures, skipping
missing or failed transactions and summing (post − pre); a
present-but-malformed result raises. -/
def analyze_wallet_flow (wallet mint : String) (history : List String)
    (tx : String → TxResult) : Except String ℚ :=
  let signatures := history.take 15
  if signatures = [] then .ok 0
  else flowGo wallet mint tx 0 (signatures.take 5)

/-- Stated from the wording of the spec for claim C4: the sum of the deltas
of the 5 most recent non-failed transactions, every failed or unparseable
transaction contributing 0 rather than producing an error — a total
function, with the window formed after discarding failed transactions.  To
be compared with the source embedding `analyze_wallet_flow`. -/
def walletFlowSpecC4 (wallet mint : String) (history : List String)
    (tx : String → TxResult) : ℚ :=
  ((((history.take 15).filter fun s => txOk (tx s)).take 5).map
    fun s => inspectDelta wallet mint (tx s)).sum

/-! ## Dominance Time-Series Store — `dominance_tracker` -/

/-- Embedding of `dominance_tracker.calculate_slope`
(src/dominance_tracker.py, lines 88–107).  A history entry is a
(timestamp-in-seconds, value) pair; x is elapsed hours since the first entry. -/
def calculate_slope (history : List (ℚ × ℚ)) : ℚ :=
  if history.length < 2 then 0
  else
    let start_time := history.headI.1
    let x := history.map fun h => (h.1 - start_time) / 3600
    let y := history.map fun h => h.2
    let n : ℚ := history.length
    let sum_x := x.sum
    let sum_y := y.sum
    let sum_xy := ((x.zip y).map fun p => p.1 * p.2).sum
    let sum_xx := (x.map fun v => v ^ 2).sum
    let denominator := n * sum_xx - sum_x ^ 2
    if denominator = 0 then 0
    else (n * sum_xy - sum_x * sum_y) / denominator

/-- The regression denominator `n * sum_xx - sum_x ** 2` of
`dominance_tracker.calculate_slope` (src/dominance_tracker.py line 103). -/
def slopeDenom (history : List (ℚ × ℚ)) : ℚ :=
  let x := history.map fun h => (h.1 - history.headI.1) / 3600
  (history.length : ℚ) * (x.map fun v => v ^ 2).sum - x.sum ^ 2

/-- Stated from the wording of the spec for claim C6: the ordinary-least-squares slope
of value against elapsed hours since the first stored sample, in the centered
covariance-over-variance form.  To be compared with the source embedding
`calculate_slope`. -/
def olsSlopeSpec (history : List (ℚ × ℚ)) : ℚ :=
  let n : ℚ := history.length
  let xbar := (history.map fun h => (h.1 - history.headI.1) / 3600).sum / n
  let ybar := (history.map fun h => h.2).sum / n
  (history.map fun h => ((h.1 - history.headI.1) / 3600 - xbar) * (h.2 - ybar)).sum /
    (history.map fun h => ((h.1 - history.headI.1) / 3600 - xbar) ^ 2).sum

/-- The regime classification of `dominance_tracker.calculate_dominance_shift`
(src/dominance_tracker.py, lines 160–163). -/
def regimeOf (slope volatility : ℚ) : String :=
  if slope > 1/2 then "Aggressive Consolidation"
  else if slope < -(1/2) then "Rapid Dilution"
  else if volatility > 2 then "Volatile Reallocation"
  else "Stable"

/-- The append-and-trim step of `dominance_tracker.calculate_dominance_shift`
(src/dominance_tracker.py, lines 132–136): append the new sample, then keep
only the last `HISTORY_LIMIT = 10` entries. -/
def appendTrim (history : List (ℚ × ℚ)) (e : ℚ × ℚ) : List (ℚ × ℚ) :=
  let extended := history ++ [e]
  if extended.length > 10 then extended.drop (extended.length - 10)
  else extended

/-! ## Cross-process lock — `dominance_tracker.atomic_lock` -/

/-- Outcome of one `os.open(LOCK_FILE, O_CREAT | O_EXCL | O_RDWR)` attempt. -/
inductive OpenResult where
  | ok
  | eexist
  | otherError
  deriving DecidableEq, Repr

/-- What the environment shows the lock loop at one poll: the open outcome,
the elapsed time since the loop started, and the age of the existing lock
file (now minus its last-modified time). -/
structure LockEnv where
  openResult : OpenResult
  elapsed : ℚ
  lockAge : ℚ

/-- Result of running the `atomic_lock` acquisition loop for a bounded number
of iterations: the lock was acquired at some poll, a non-`EEXIST` open error
was raised at some poll, or the loop is still waiting. -/
inductive LockOutcome where
  | acquired (i : ℕ)
  | raised (i : ℕ)
  | stillWaiting
  deriving DecidableEq, Repr

/-- Embedding of the `while True` acquisition loop of
`dominance_tracker.atomic_lock` (src/dominance_tracker.py, lines 33–54),
run for `fuel` iterations starting at poll index `i`.  Every branch of the
`EEXIST` handler — sleep-and-retry before the timeout, stale-lock breaking
and bare `continue` after it — loops again; the loop is left only by a
successful open (acquisition) or a non-`EEXIST` error (raised). -/
def acquireLock (env : ℕ → LockEnv) : ℕ → ℕ → LockOutcome
  | 0, _ => .stillWaiting
  | fuel + 1, i =>
    match (env i).openResult with
    | .ok => .acquired i
    | .otherError => .raised i
    | .eexist =>
      if (env i).elapsed > 5 then
        if (env i).lockAge > 5 then
          -- stale: break the lock (os.remove) and retry
          acquireLock env fuel (i + 1)
        else
          -- timed out but the lock is fresh: bare continue (spin)
          acquireLock env fuel (i + 1)
      else
        -- within the timeout: sleep 0.1s and retry
        acquireLock env fuel (i + 1)

/-! ## Ledger Gateway — `whale_engine._rpc_call` and `solana_api.fetch_rpc` -/

/-- What one Gateway attempt observes: a transport/HTTP exception, a JSON
body carrying an `error` object (with or without a 429 rate-limit marker),
or a successful payload. -/
inductive RpcAttempt where
  | exn
  | errResp (is429 : Bool)
  | ok (data : String)
  deriving DecidableEq, Repr

/-- A Gateway call result: `Except.error` models an exception escaping to the
caller; `Except.ok none` models the empty dict `{}`; `Except.ok (some d)`
models a successful payload. -/
def RpcResult := Except String (Option String)

/-- Embedding of `WhaleEngine._rpc_call` (src/whale_engine.py, lines 26–46)
from attempt `i` on: `MAX_RETRIES = 3` attempts; an exception or a
rate-limited error response backs off and retries; any other error response
returns `{}` at once; exhausting the loop returns `{}`. -/
def whaleRpcFrom (env : ℕ → RpcAttempt) (i : ℕ) : RpcResult :=
  if _h : i < 3 then
    match env i with
    | .ok d => .ok (some d)
    | .errResp true => whaleRpcFrom env (i + 1)
    | .errResp false => .ok none
    | .exn => whaleRpcFrom env (i + 1)
  else .ok none
  termination_by 3 - i

/-- What the body of one `solana_api.fetch_rpc` attempt does before the
`except` handler runs (src/solana_api.py, lines 77–95): return a payload,
`continue` to the next attempt, or raise (a transport exception, or the
`ValueError` raised on an error response at the final attempt). -/
inductive FetchStep where
  | ret (d : String)
  | cont
  | raised
  deriving DecidableEq, Repr

/-- The `try` body of `solana_api.fetch_rpc` at attempt `i`: an error
response sleeps and continues before the final attempt and raises
`ValueError` on it; an exception raises; a payload returns. -/
def fetchRpcBody (a : RpcAttempt) (i : ℕ) : FetchStep :=
  match a with
  | .exn => .raised
  | .errResp _ => if i < 2 then .cont else .raised
  | .ok d => .ret d

/-- Embedding of `solana_api.fetch_rpc` (src/solana_api.py, lines 74–103)
from attempt `i` on: `MAX_RPC_RETRIES = 3` attempts; the `except` handler
catches every exception raised by the body — including the final-attempt
`ValueError` — and returns `{}` on the last attempt, else backs off and
retries; the fall-through after the loop also returns `{}`. -/
def fetchRpcFrom (env : ℕ → RpcAttempt) (i : ℕ) : RpcResult :=
  if _h : i < 3 then
    match fetchRpcBody (env i) i with
    | .ret d => .ok (some d)
    | .cont => fetchRpcFrom env (i + 1)
    | .raised => if i = 2 then .ok none else fetchRpcFrom env (i + 1)
  else .ok none
  termination_by 3 - i
lemma step1_eq (t1 : ℚ) :
    (if t1 > 40 then (100:ℚ) - 60
     else if t1 > 20 then (100:ℚ) - 40
     else if t1 > 10 then (100:ℚ) - 20
     else if t1 > 5 then (100:ℚ) - 10
     else (100:ℚ)) = 100 - specPen1 t1 := by
  simp only [specPen1]; split_ifs <;> ring

lemma step10_eq (s t10 : ℚ) :
    (if t10 > 60 then s - 50
     else if t10 > 50 then s - 40
     else if t10 > 35 then s - 30
     else if t10 ≥ 20 then s - 20
     else s) = s - specPen10 t10 := by
  simp only [specPen10]; split_ifs <;> ring

lemma stepH_eq (s : ℚ) (h : ℕ) :
    (if h > 0 then
       if h < 100 then s - 20
       else if h < 500 then s - 10
       else if h > 2000 then s + 5
       else s
     else s) = s - specPenH h := by
  simp only [specPenH]; split_ifs <;> ring

lemma supplyPenaltyScore_eq_spec (t1 t10 : ℚ) (h : ℕ) :
    supplyPenaltyScore t1 t10 h = supplyScoreSpecRaw t1 t10 h := by
  simp only [supplyPenaltyScore, supplyScoreSpecRaw]
  rw [stepH_eq, step10_eq, step1_eq]

/-- C3: for all inputs, `calculate_supply_score` applies only the first matching
tier of each of the three penalty groups, clamps the result to [0,100] and maps
the clamped score to its status (≥85 Healthy, ≥65 Moderate, ≥40 High, else
Critical); in particular (top1=45, top10=70, holders=50) yields clamped score 0
and status Critical Centralization. -/
theorem claim_C3 :
    (∀ (t1 t10 : ℚ) (h : ℕ),
        (calculate_supply_score t1 t10 h).score
            = pyRound 2 (supplyScoreSpecClamped t1 t10 h)
        ∧ (calculate_supply_score t1 t10 h).status
            = supplyStatusSpec (supplyScoreSpecClamped t1 t10 h)
        ∧ 0 ≤ supplyScoreSpecClamped t1 t10 h
        ∧ supplyScoreSpecClamped t1 t10 h ≤ 100)
    ∧ supplyScoreSpecClamped 45 70 50 = 0
    ∧ (calculate_supply_score 45 70 50).score = 0
    ∧ (calculate_supply_score 45 70 50).status = "Critical Centralization" := by
  refine ⟨fun t1 t10 h => ⟨?_, ?_, ?_, ?_⟩, ?_, ?_, ?_⟩
  · simp only [calculate_supply_score, supplyScoreSpecClamped,
      supplyPenaltyScore_eq_spec]
  · simp only [calculate_supply_score, supplyScoreSpecClamped, supplyStatusSpec,
      supplyPenaltyScore_eq_spec]
  · exact le_max_left _ _
  · exact max_le (by norm_num) (min_le_left _ _)
  · norm_num [supplyScoreSpecClamped, supplyScoreSpecRaw, specPen1, specPen10,
      specPenH]
  · norm_num [calculate_supply_score, supplyPenaltyScore, pyRound,
      roundHalfToEven]
  · norm_num [calculate_supply_score, supplyPenaltyScore]

/-- C1: with status Critical Centralization, a detected bundle, Strong
Distribution pressure, slope 0.6, 1-hour price change 3.0 and whale
net-flow-percent −0.2, the synthesizer accumulates 40+50+25+20+25 = 160, clamps
the risk score to 100 and returns intensity Critical, label "⛔ HIGH RUG RISK"
and correlation verdict "⚠️ Divergence: Whales Selling into Pump". -/
theorem claim_C1 :
    (behaviorAccumulate "Critical Centralization" "Strong Distribution" true
        (-(1/5)) (3/5) 3).1 = 160
    ∧ min 100 (max 0 (160:ℚ)) = 100
    ∧ generate_behavior_verdict "Critical Centralization" "Strong Distribution"
        true (-(1/5)) (3/5) 3 =
      { risk_score := 100
        risk_intensity := "Critical"
        verdict_label := "⛔ HIGH RUG RISK"
        verdict_description := "Extreme centralization. 🚨 INSIDER BUNDLE DETECTED. Whales dumping. Top holder accumulating fast. Exit liquidity trap detected."
        correlation_verdict := "⚠️ Divergence: Whales Selling into Pump" } := by
  refine ⟨by norm_num [behaviorAccumulate], by norm_num, ?_⟩
  norm_num [generate_behavior_verdict, behaviorAccumulate, pyRound,
    roundHalfToEven]
  decide

lemma mem_counterKeys_aux (l acc : List String) (a : String) :
    a ∈ l.foldl (fun acc x => if x ∈ acc then acc else acc ++ [x]) acc ↔
      a ∈ acc ∨ a ∈ l := by
  induction l generalizing acc with
  | nil => simp
  | cons x t ih =>
    simp only [List.foldl_cons]
    rw [ih]
    by_cases hx : x ∈ acc
    · by_cases hax : a = x <;> simp [hx, hax]
    · by_cases hax : a = x <;> simp [hx, hax]

lemma mem_counterKeys (l : List String) (a : String) :
    a ∈ counterKeys l ↔ a ∈ l := by
  rw [counterKeys, mem_counterKeys_aux]; simp

lemma foldl_mcStep_none_iff (l keys : List String) (init : Option (String × ℕ)) :
    keys.foldl (mcStep l) init = none ↔ init = none ∧ keys = [] := by
  induction keys generalizing init with
  | nil => simp
  | cons k ks ih =>
    simp only [List.foldl_cons, ih]
    constructor
    · rintro ⟨h, -⟩
      cases init with
      | none => simp [mcStep] at h
      | some p => simp [mcStep] at h; split at h <;> simp_all
    · rintro ⟨-, h⟩; simp at h

lemma mcStep_some (l : List String) (init : Option (String × ℕ)) (k : String) :
    ∃ q, mcStep l init k = some q := by
  cases init with
  | none => exact ⟨_, rfl⟩
  | some p =>
    simp only [mcStep]
    split
    · exact ⟨_, rfl⟩
    · exact ⟨p, rfl⟩

lemma mcStep_count_le (l : List String) (init : Option (String × ℕ))
    (k : String) (q : String × ℕ) (h : mcStep l init k = some q) :
    l.count k ≤ q.2 := by
  cases init with
  | none => simp [mcStep] at h; simp [← h]
  | some r =>
    simp only [mcStep] at h
    split at h
    · simp at h; simp [← h]
    · simp at h; subst h; omega

lemma mcStep_init_le (l : List String) (init : Option (String × ℕ))
    (k : String) (q : String × ℕ) (h : mcStep l init k = some q) :
    ∀ r, init = some r → r.2 ≤ q.2 := by
  intro r hr
  subst hr
  simp only [mcStep] at h
  split at h
  · simp at h; subst h; omega
  · simp at h; subst h; omega

lemma foldl_mcStep_count (l keys : List String) (init : Option (String × ℕ))
    (hinit : ∀ p, init = some p → p.2 = l.count p.1) :
    ∀ p, keys.foldl (mcStep l) init = some p → p.2 = l.count p.1 := by
  induction keys generalizing init with
  | nil => simpa using hinit
  | cons k ks ih =>
    simp only [List.foldl_cons]
    refine ih _ ?_
    intro p hp
    cases init with
    | none => simp [mcStep] at hp; simp [← hp]
    | some q =>
      simp only [mcStep] at hp
      split at hp
      · simp at hp; simp [← hp]
      · exact hinit p hp

lemma foldl_mcStep_max (l keys : List String) (init : Option (String × ℕ)) :
    ∀ p, keys.foldl (mcStep l) init = some p →
      (∀ k ∈ keys, l.count k ≤ p.2) ∧ (∀ q, init = some q → q.2 ≤ p.2) := by
  induction keys generalizing init with
  | nil =>
    intro p hp
    refine ⟨by simp, ?_⟩
    intro q hq
    simp at hp
    rw [hp] at hq
    simp at hq
    simp [hq]
  | cons k ks ih =>
    intro p hp
    simp only [List.foldl_cons] at hp
    obtain ⟨hks, hrest⟩ := ih _ p hp
    obtain ⟨q, hq⟩ := mcStep_some l init k
    have hqp : q.2 ≤ p.2 := hrest q hq
    refine ⟨?_, ?_⟩
    · intro k' hk'
      rcases List.mem_cons.mp hk' with heq | hk'
      · rw [heq]
        exact le_trans (mcStep_count_le l init k q hq) hqp
      · exact hks k' hk'
    · intro r hr
      exact le_trans (mcStep_init_le l init k q hq r hr) hqp

lemma count_counterKeys_max (l : List String) (a : String) (ha : a ∈ l) :
    ∀ p, mostCommon l = some p → l.count a ≤ p.2 := by
  intro p hp
  exact (foldl_mcStep_max l (counterKeys l) none p hp).1 a
    ((mem_counterKeys l a).mpr ha)

lemma mostCommon_eq_none_iff (l : List String) :
    mostCommon l = none ↔ l = [] := by
  rw [mostCommon, foldl_mcStep_none_iff]
  simp only [true_and]
  constructor
  · intro h
    by_contra hl
    obtain ⟨x, hx⟩ := List.exists_mem_of_ne_nil l hl
    have := (mem_counterKeys l x).mpr hx
    simp [h] at this
  · intro h; simp [h, counterKeys]

/-- C2: for every whale-pressure result, the detected flag of the bundle
verdict is true iff some real-funder address occurs at least twice among the
funding traces of the sampled wallets (ignoring EstablishedUser, SelfFunded
and Unknown); in particular the seven traces A, A, B, Unknown,
EstablishedUser, SelfFunded, A yield main funder A, size 3, detected true. -/
theorem claim_C2 :
    (∀ fs : List FundingTrace,
        ((bundleOf fs).1 = true ↔ ∃ a, 2 ≤ (suspectFunders fs).count a))
    ∧ (∀ (uiAmount : Option ℚ) (accounts : List String)
          (flowOf : String → ℚ) (funderOf : String → FundingTrace) (t : ℚ),
        accounts ≠ [] →
        ((calculate_whale_pressure uiAmount accounts flowOf funderOf t).lookup
            "bundle_detected")
          = some (.b (bundleOf ((accounts.take 7).map funderOf)).1))
    ∧ bundleOf [.realFunder "A", .realFunder "A", .realFunder "B", .unknown,
        .establishedUser, .selfFunded, .realFunder "A"] = (true, 3, "A") := by
  refine ⟨?_, ?_, by decide⟩
  · intro fs
    cases h : mostCommon (suspectFunders fs) with
    | none =>
      have hl : suspectFunders fs = [] := (mostCommon_eq_none_iff _).mp h
      simp [bundleOf, h, hl, mostCommon, counterKeys]
    | some p =>
      obtain ⟨a, c⟩ := p
      simp only [bundleOf, h, decide_eq_true_eq]
      constructor
      · intro hc
        have hcount := foldl_mcStep_count (suspectFunders fs)
          (counterKeys (suspectFunders fs)) none (by simp) (a, c) h
        exact ⟨a, by rw [← hcount]; exact hc⟩
      · rintro ⟨b, hb⟩
        have hbl : b ∈ suspectFunders fs := by
          by_contra hnb
          rw [List.count_eq_zero_of_not_mem hnb] at hb
          omega
        exact le_trans hb (count_counterKeys_max _ b hbl (a, c) h)
  · intro uiAmount accounts flowOf funderOf t hne
    simp [calculate_whale_pressure, if_neg hne, List.lookup]

/-- Witness for C2 at a concrete non-empty holder list. -/
theorem claim_C2_witness :
    (["w1"] : List String) ≠ [] ∧
    ((calculate_whale_pressure (some 5) ["w1"] (fun _ => 0)
        (fun _ => FundingTrace.unknown) 0).lookup "bundle_detected")
      = some (.b (bundleOf ((["w1"].take 7).map fun _ => FundingTrace.unknown)).1) :=
  ⟨by decide, claim_C2.2.1 (some 5) ["w1"] (fun _ => 0)
    (fun _ => FundingTrace.unknown) 0 (by decide)⟩

/-- C9: with no holder accounts, `calculate_whale_pressure` returns exactly
the two-field dict with pressure Neutral and bundle_detected false; with a
non-empty holder list the result carries exactly the seven keys pressure,
net_flow_percent_supply, bundle_detected, bundle_size, main_funder,
scanned_wallets and execution_time. -/
theorem claim_C9 :
    ∀ (uiAmount : Option ℚ) (accounts : List String)
      (flowOf : String → ℚ) (funderOf : String → FundingTrace) (t : ℚ),
      (accounts = [] →
        calculate_whale_pressure uiAmount accounts flowOf funderOf t
          = [("pressure", .s "Neutral"), ("bundle_detected", .b false)])
      ∧ (accounts ≠ [] →
        (calculate_whale_pressure uiAmount accounts flowOf funderOf t).map
            Prod.fst
          = ["pressure", "net_flow_percent_supply", "bundle_detected",
             "bundle_size", "main_funder", "scanned_wallets",
             "execution_time"]) := by
  intro uiAmount accounts flowOf funderOf t
  constructor
  · intro h
    simp [calculate_whale_pressure, h]
  · intro h
    simp [calculate_whale_pressure, if_neg h]

/-- Witness for C9 at concrete empty and non-empty holder lists. -/
theorem claim_C9_witness :
    (calculate_whale_pressure (some 5) [] (fun _ => 0)
        (fun _ => FundingTrace.unknown) 0
      = [("pressure", .s "Neutral"), ("bundle_detected", .b false)])
    ∧ ((calculate_whale_pressure (some 5) ["w1"] (fun _ => 0)
        (fun _ => FundingTrace.unknown) 0).map Prod.fst
      = ["pressure", "net_flow_percent_supply", "bundle_detected",
         "bundle_size", "main_funder", "scanned_wallets", "execution_time"]) :=
  ⟨(claim_C9 (some 5) [] (fun _ => 0) (fun _ => FundingTrace.unknown) 0).1 rfl,
   (claim_C9 (some 5) ["w1"] (fun _ => 0) (fun _ => FundingTrace.unknown) 0).2
     (by decide)⟩

/-- C10: the net-flow percent is never a division by zero: a missing or zero
supply is replaced by 1, so the denominator is non-zero for every Gateway
response shape, and the reported flow percent is the net flow divided by that
guarded total supply. -/
theorem claim_C10 :
    ∀ uiAmount : Option ℚ,
      totalSupplyOf uiAmount ≠ 0
      ∧ ((uiAmount = none ∨ uiAmount = some 0) → totalSupplyOf uiAmount = 1)
      ∧ (∀ (accounts : List String) (flowOf : String → ℚ)
            (funderOf : String → FundingTrace) (t : ℚ), accounts ≠ [] →
          (calculate_whale_pressure uiAmount accounts flowOf funderOf t).lookup
              "net_flow_percent_supply"
            = some (.q (pyRound 4 (((accounts.take 7).map flowOf).sum
                / totalSupplyOf uiAmount * 100)))) := by
  intro uiAmount
  refine ⟨?_, ?_, ?_⟩
  · cases uiAmount with
    | none => norm_num [totalSupplyOf]
    | some v =>
      by_cases hv : v = 0 <;> simp [totalSupplyOf, hv]
  · rintro (rfl | rfl) <;> simp [totalSupplyOf]
  · intro accounts flowOf funderOf t h
    simp [calculate_whale_pressure, if_neg h, List.lookup]

/-- Witness for C10 at the zero-supply response. -/
theorem claim_C10_witness :
    totalSupplyOf (some 0) ≠ 0 ∧ totalSupplyOf (some 0) = 1
    ∧ (calculate_whale_pressure (some 0) ["w1"] (fun _ => 0)
        (fun _ => FundingTrace.unknown) 0).lookup "net_flow_percent_supply"
      = some (.q (pyRound 4 ((["w1"].map (fun _ => (0:ℚ))).sum
          / totalSupplyOf (some 0) * 100))) :=
  ⟨(claim_C10 (some 0)).1, (claim_C10 (some 0)).2.1 (Or.inr rfl),
   (claim_C10 (some 0)).2.2 ["w1"] (fun _ => 0) (fun _ => FundingTrace.unknown) 0
     (by decide)⟩

lemma sum_map_ite_filter {α : Type} (l : List α) (p : α → Bool) (f : α → ℚ) :
    (l.map fun a => if p a then f a else 0).sum = ((l.filter p).map f).sum := by
  induction l with
  | nil => simp
  | cons a t ih => by_cases h : p a <;> simp [h, ih]

lemma flowGo_all_ok (wallet mint : String) (tx : String → TxResult)
    (l : List String)
    (hok : ∀ s ∈ l, ∃ q, inspectTx wallet mint (tx s) = Except.ok q) :
    ∀ acc : ℚ, flowGo wallet mint tx acc l
      = Except.ok (acc + (l.map fun s => inspectDelta wallet mint (tx s)).sum) := by
  induction l with
  | nil => intro acc; simp [flowGo]
  | cons s rest ih =>
    intro acc
    obtain ⟨q, hq⟩ := hok s (List.mem_cons_self s rest)
    rw [flowGo, hq]
    show flowGo wallet mint tx (acc + q) rest = _
    rw [ih (fun a ha => hok a (List.mem_cons_of_mem s ha))]
    have hd : inspectDelta wallet mint (tx s) = q := by
      rw [inspectDelta, hq]
    simp only [List.map_cons, List.sum_cons, hd]
    ring_nf

lemma flowGo_error (wallet mint : String) (tx : String → TxResult)
    (l : List String)
    (herr : ∃ s ∈ l, ∃ e, inspectTx wallet mint (tx s) = Except.error e) :
    ∀ acc : ℚ, ∃ e, flowGo wallet mint tx acc l = Except.error e := by
  induction l with
  | nil => simp at herr
  | cons s rest ih =>
    intro acc
    cases hins : inspectTx wallet mint (tx s) with
    | error e => exact ⟨e, by rw [flowGo, hins]⟩
    | ok q =>
      rw [flowGo, hins]
      rcases herr with ⟨a, ha, e, hae⟩
      rcases List.mem_cons.mp ha with heq | ha
      · rw [heq] at hae
        rw [hae] at hins
        cases hins
      · exact ih ⟨a, ha, e, hae⟩ (acc + q)

lemma inspectDelta_of_not_ok (wallet mint : String) (r : TxResult)
    (hparse : ∃ q, inspectTx wallet mint r = Except.ok q)
    (hno : txOk r = false) : inspectDelta wallet mint r = 0 := by
  cases r with
  | missing => rfl
  | result m =>
    cases m with
    | null => obtain ⟨q, hq⟩ := hparse; cases hq
    | absent => obtain ⟨q, hq⟩ := hparse; cases hq
    | meta err pre post =>
      cases err with
      | false => simp [txOk] at hno
      | true => simp [inspectDelta, inspectTx]

/-- C4 (amended): the per-wallet flow inspects the 5 most recent of the up
to 15 fetched signatures; when every inspected result parses, it returns the
sum of (post minus pre) over the present, non-failed transactions among
those 5, a missing result or failed transaction contributing 0; when some
inspected result is present but malformed, the loop raises instead of
contributing 0.  (The claim as frozen forms the window from the 5 most
recent non-failed transactions and makes every unparseable transaction
contribute 0; the counterexample separates both readings from the code.) -/
theorem claim_C4_amended :
    ∀ (wallet mint : String) (history : List String) (tx : String → TxResult),
      ((∀ s ∈ (history.take 15).take 5,
          ∃ q, inspectTx wallet mint (tx s) = Except.ok q) →
        analyze_wallet_flow wallet mint history tx
          = Except.ok (((((history.take 15).take 5).filter
              fun s => txOk (tx s)).map
              fun s => inspectDelta wallet mint (tx s)).sum))
      ∧ ((∃ s ∈ (history.take 15).take 5,
          ∃ e, inspectTx wallet mint (tx s) = Except.error e) →
        ∃ e, analyze_wallet_flow wallet mint history tx = Except.error e) := by
  intro wallet mint history tx
  constructor
  · intro hok
    unfold analyze_wallet_flow
    by_cases hne : history.take 15 = []
    · simp [hne]
    · rw [if_neg hne, flowGo_all_ok wallet mint tx _ hok 0, zero_add]
      congr 1
      rw [← sum_map_ite_filter]
      refine congrArg List.sum (List.map_congr_left ?_)
      intro s hs
      by_cases hT : txOk (tx s)
      · rw [if_pos hT]
      · rw [if_neg hT,
          inspectDelta_of_not_ok wallet mint (tx s) (hok s hs)
            (Bool.not_eq_true _ ▸ hT)]
  · intro herr
    have hne : history.take 15 ≠ [] := by
      rcases herr with ⟨s, hs, -⟩
      intro h
      rw [h] at hs
      simp at hs
    unfold analyze_wallet_flow
    rw [if_neg hne]
    exact flowGo_error wallet mint tx _ herr 0

/-- Witness for C4 (amended) at a one-signature history: the all-parsing
branch with a missing result, and the raising branch with a null `meta`. -/
theorem claim_C4_witness :
    analyze_wallet_flow "w" "m" ["t0"] (fun _ => TxResult.missing)
      = Except.ok ((((["t0"].take 15).take 5).filter
          fun s => txOk ((fun _ => TxResult.missing) s)).map
          fun s => inspectDelta "w" "m" ((fun _ => TxResult.missing) s)).sum
    ∧ ∃ e, analyze_wallet_flow "w" "m" ["t0"]
        (fun _ => TxResult.result MetaField.null) = Except.error e :=
  ⟨(claim_C4_amended "w" "m" ["t0"] (fun _ => TxResult.missing)).1
      (fun _ _ => ⟨0, rfl⟩),
   (claim_C4_amended "w" "m" ["t0"] (fun _ => TxResult.result MetaField.null)).2
      ⟨"t0", List.mem_cons_self "t0" [],
        "AttributeError: NoneType has no attribute get", rfl⟩⟩

/-- C4 counterexample, refuting both parts of the frozen claim.  First,
the window: with a failed transaction among the 5 most recent and a sixth
non-failed one of delta 1, the code sums only the non-failed among the
first 5 (result 4), while the frozen reading — the 5 most recent non-failed
transactions — gives 5.  Second, the error clause: with a present result
whose `meta` is null, the code raises `AttributeError` and aborts rather
than contributing 0 as the frozen claim states. -/
theorem claim_C4_counterexample :
    (analyze_wallet_flow "w" "m" ["s0", "s1", "s2", "s3", "s4", "s5"]
        (fun s => if s = "s0"
          then TxResult.result (MetaField.meta true BalField.absent
            BalField.absent)
          else TxResult.result (MetaField.meta false
            (BalField.entries [⟨some "w", some "m", .val 0⟩])
            (BalField.entries [⟨some "w", some "m", .val 1⟩])))
        = Except.ok 4
      ∧ walletFlowSpecC4 "w" "m" ["s0", "s1", "s2", "s3", "s4", "s5"]
        (fun s => if s = "s0"
          then TxResult.result (MetaField.meta true BalField.absent
            BalField.absent)
          else TxResult.result (MetaField.meta false
            (BalField.entries [⟨some "w", some "m", .val 0⟩])
            (BalField.entries [⟨some "w", some "m", .val 1⟩])))
        = 5)
    ∧ (analyze_wallet_flow "w" "m" ["t0"]
          (fun _ => TxResult.result MetaField.null)
        = Except.error "AttributeError: NoneType has no attribute get"
      ∧ walletFlowSpecC4 "w" "m" ["t0"]
          (fun _ => TxResult.result MetaField.null) = 0) := by
  refine ⟨⟨?_, ?_⟩, ?_, ?_⟩
  · simp [analyze_wallet_flow, flowGo, inspectTx, getBalances, extractBalance,
      Except.bind]
    norm_num
  · simp [walletFlowSpecC4, txOk, inspectDelta, inspectTx, getBalances,
      extractBalance, List.filter, Except.bind]
    norm_num
  · simp [analyze_wallet_flow, flowGo, inspectTx]
  · simp [walletFlowSpecC4, txOk, List.filter]

lemma sum_centered {α : Type} (l : List α) (f g : α → ℚ) (c d : ℚ) :
    (l.map fun a => (f a - c) * (g a - d)).sum
      = (l.map fun a => f a * g a).sum - d * (l.map f).sum
        - c * (l.map g).sum + l.length * (c * d) := by
  induction l with
  | nil => simp
  | cons a t ih =>
    simp only [List.map_cons, List.sum_cons, List.length_cons, ih]
    push_cast
    ring

lemma zip_map_mul {α : Type} (l : List α) (f g : α → ℚ) :
    (((l.map f).zip (l.map g)).map fun p => p.1 * p.2)
      = l.map fun a => f a * g a := by
  rw [List.zip_map', List.map_map]
  rfl

lemma ols_centered {α : Type} (l : List α) (f g : α → ℚ) (hne : l ≠ []) :
    ((l.length : ℚ) * (l.map fun a => f a * g a).sum
        - (l.map f).sum * (l.map g).sum)
      / ((l.length : ℚ) * (l.map fun a => f a ^ 2).sum - (l.map f).sum ^ 2)
    = (l.map fun a =>
          (f a - (l.map f).sum / l.length) * (g a - (l.map g).sum / l.length)).sum
      / (l.map fun a => (f a - (l.map f).sum / l.length) ^ 2).sum := by
  have hn : (l.length : ℚ) ≠ 0 := by
    have := List.length_pos.mpr hne
    positivity
  have e1 := sum_centered l f g ((l.map f).sum / l.length)
    ((l.map g).sum / l.length)
  have h2 : (l.map fun a =>
      (f a - (l.map f).sum / l.length) * (f a - (l.map f).sum / l.length))
      = l.map fun a => (f a - (l.map f).sum / l.length) ^ 2 := by
    simp [pow_two]
  have e2 := sum_centered l f f ((l.map f).sum / l.length)
    ((l.map f).sum / l.length)
  rw [h2] at e2
  have h3 : (l.map fun a => f a * f a) = l.map fun a => f a ^ 2 := by
    simp [pow_two]
  rw [h3] at e2
  rw [e1, e2]
  set n : ℚ := (l.length : ℚ)
  set S1 := (l.map f).sum
  set S2 := (l.map g).sum
  set S12 := (l.map fun a => f a * g a).sum
  set S11 := (l.map fun a => f a ^ 2).sum
  have hnum : S12 - S2 / n * S1 - S1 / n * S2 + n * (S1 / n * (S2 / n))
      = (n * S12 - S1 * S2) / n := by
    field_simp
    ring
  have hden2 : S11 - S1 / n * S1 - S1 / n * S1 + n * (S1 / n * (S1 / n))
      = (n * S11 - S1 ^ 2) / n := by
    field_simp
    ring
  rw [hnum, hden2]
  rw [div_div_div_cancel_right₀ hn]

/-- C6: for at least two samples, `calculate_slope` equals the
ordinary-least-squares fit of value against elapsed hours since the first
sample (centered covariance over variance) whenever the regression
denominator is non-zero, returns 0 when that denominator is zero, and a slope
above 0.5 yields regime Aggressive Consolidation; values 10, 12, 14, 16 at
1-hour spacing give slope 2 and that regime. -/
theorem claim_C6 :
    (∀ history : List (ℚ × ℚ), 2 ≤ history.length → slopeDenom history ≠ 0 →
        calculate_slope history = olsSlopeSpec history)
    ∧ (∀ history : List (ℚ × ℚ), slopeDenom history = 0 →
        calculate_slope history = 0)
    ∧ (∀ slope volatility : ℚ, slope > 1/2 →
        regimeOf slope volatility = "Aggressive Consolidation")
    ∧ calculate_slope [(0, 10), (3600, 12), (7200, 14), (10800, 16)] = 2
    ∧ regimeOf (calculate_slope [(0, 10), (3600, 12), (7200, 14), (10800, 16)]) 0
        = "Aggressive Consolidation" := by
  have hs : calculate_slope [(0, 10), (3600, 12), (7200, 14), (10800, 16)] = 2 := by
    norm_num [calculate_slope, List.zip, List.zipWith]
  refine ⟨?_, ?_, ?_, hs, by rw [hs]; norm_num [regimeOf]⟩
  · intro history hlen hden
    have hne : history ≠ [] := by
      intro h; rw [h] at hlen; simp at hlen
    simp only [calculate_slope, slopeDenom, olsSlopeSpec] at *
    rw [if_neg (by omega), if_neg hden]
    rw [zip_map_mul, List.map_map]
    exact ols_centered history _ _ hne
  · intro history hden
    by_cases hlen : history.length < 2
    · simp [calculate_slope, hlen]
    · simp only [calculate_slope, slopeDenom] at *
      rw [if_neg hlen, if_pos hden]
  · intro s v h
    rw [regimeOf, if_pos h]

/-- Witness for C6 at the concrete four-sample history. -/
theorem claim_C6_witness :
    calculate_slope [(0, 10), (3600, 12), (7200, 14), (10800, 16)]
        = olsSlopeSpec [(0, 10), (3600, 12), (7200, 14), (10800, 16)]
    ∧ regimeOf 1 0 = "Aggressive Consolidation" :=
  ⟨claim_C6.1 _ (by norm_num) (by norm_num [slopeDenom]),
   claim_C6.2.2.1 1 0 (by norm_num)⟩

lemma foldl_appendTrim_closed (es : List (ℚ × ℚ)) :
    es.foldl appendTrim []
      = if es.length ≤ 10 then es else es.drop (es.length - 10) := by
  induction es using List.reverseRecOn with
  | nil => simp
  | append_singleton es e ih =>
    rw [List.foldl_append, List.foldl_cons, List.foldl_nil, ih]
    by_cases h : es.length ≤ 10
    · rw [if_pos h]
      by_cases h10 : es.length = 10
      · have hlen : (es ++ [e]).length = 11 := by simp [h10]
        rw [appendTrim, hlen]
        norm_num
      · have hlen : (es ++ [e]).length = es.length + 1 := by simp
        rw [appendTrim, hlen, if_neg (by omega), if_pos (by omega)]
    · rw [if_neg h]
      have hd : (es.drop (es.length - 10)).length = 10 := by
        rw [List.length_drop]; omega
      have hlen1 : (es.drop (es.length - 10) ++ [e]).length = 11 := by
        simp [hd]
      have hlen2 : (es ++ [e]).length = es.length + 1 := by simp
      rw [appendTrim, hlen1, hlen2, if_pos (by omega), if_neg (by omega)]
      rw [show (11:ℕ) - 10 = 1 from rfl]
      rw [List.drop_append_of_le_length
        (by omega : 1 ≤ (es.drop (es.length - 10)).length)]
      rw [List.drop_drop]
      rw [List.drop_append_of_le_length
        (by omega : es.length + 1 - 10 ≤ es.length)]
      congr 2
      omega

/-- C7: for every sequence of appended samples, the stored dominance history
never exceeds 10 entries, is a contiguous suffix of the appended sequence
(insertion order preserved, oldest evicted first), and equals the last 10
appended entries. -/
theorem claim_C7 :
    ∀ es : List (ℚ × ℚ),
      (es.foldl appendTrim []).length ≤ 10
      ∧ (es.foldl appendTrim []) <:+ es
      ∧ es.foldl appendTrim []
          = if es.length ≤ 10 then es else es.drop (es.length - 10) := by
  intro es
  have h := foldl_appendTrim_closed es
  refine ⟨?_, ?_, h⟩
  · rw [h]; split_ifs with hle
    · exact hle
    · rw [List.length_drop]; omega
  · rw [h]; split_ifs
    · exact List.suffix_refl es
    · exact List.drop_suffix _ _

/-- C5 (amended): the lock-acquisition loop of `atomic_lock` exits only by
acquiring the lock (a successful open) or by propagating a non-EEXIST open
error; when the 5-second timeout expires it breaks a stale lock and retries
rather than proceeding without the lock, and if the lock is never released it
waits forever. -/
theorem claim_C5 :
    (∀ (env : ℕ → LockEnv) (fuel i : ℕ),
        acquireLock env fuel i = .stillWaiting
        ∨ (∃ j, acquireLock env fuel i = .acquired j
            ∧ (env j).openResult = .ok)
        ∨ (∃ j, acquireLock env fuel i = .raised j
            ∧ (env j).openResult = .otherError))
    ∧ (∀ (env : ℕ → LockEnv) (fuel i : ℕ),
        (∀ j, (env j).openResult = .eexist) →
        acquireLock env fuel i = .stillWaiting) := by
  constructor
  · intro env fuel
    induction fuel with
    | zero => intro i; exact Or.inl rfl
    | succ n ih =>
      intro i
      cases hres : (env i).openResult with
      | ok =>
        simp only [acquireLock, hres]
        exact Or.inr (Or.inl ⟨i, rfl, hres⟩)
      | otherError =>
        simp only [acquireLock, hres]
        exact Or.inr (Or.inr ⟨i, rfl, hres⟩)
      | eexist =>
        simp only [acquireLock, hres]
        split_ifs <;> exact ih (i + 1)
  · intro env fuel
    induction fuel with
    | zero => intro i _; rfl
    | succ n ih =>
      intro i henv
      simp only [acquireLock, henv i]
      split_ifs <;> exact ih (i + 1) henv

/-- Witness for C5: an always-held lock leaves the loop still waiting. -/
theorem claim_C5_witness :
    acquireLock (fun _ => ⟨.eexist, 6, 0⟩) 50 0 = .stillWaiting :=
  claim_C5.2 (fun _ => ⟨.eexist, 6, 0⟩) 50 0 (fun _ => rfl)

/-- C5 counterexample: with the timeout already exceeded (elapsed 6 > 5) and
a fresh lock held throughout, the loop is still waiting after its polls — the
operation does not proceed without the lock as the frozen claim states. -/
theorem claim_C5_counterexample :
    ((fun _ => (⟨.eexist, 6, 0⟩ : LockEnv)) 0).elapsed > 5
    ∧ acquireLock (fun _ => ⟨.eexist, 6, 0⟩) 3 0 = .stillWaiting := by
  refine ⟨by norm_num, ?_⟩
  show acquireLock _ (2 + 1) 0 = _
  rw [acquireLock]
  norm_num
  show acquireLock _ (1 + 1) 1 = _
  rw [acquireLock]
  norm_num
  show acquireLock _ (0 + 1) 2 = _
  rw [acquireLock]
  norm_num
  rfl

lemma whaleRpcFrom_ok (env : ℕ → RpcAttempt) :
    ∀ (k i : ℕ), 3 - i ≤ k → ∃ d, whaleRpcFrom env i = .ok d := by
  intro k
  induction k with
  | zero =>
    intro i hi
    rw [whaleRpcFrom, dif_neg (by omega)]
    exact ⟨none, rfl⟩
  | succ n ih =>
    intro i hi
    by_cases h3 : i < 3
    · cases henv : env i with
      | exn =>
        rw [whaleRpcFrom, henv, dif_pos h3]
        exact ih (i + 1) (by omega)
      | errResp b =>
        cases b with
        | true =>
          rw [whaleRpcFrom, henv, dif_pos h3]
          exact ih (i + 1) (by omega)
        | false =>
          rw [whaleRpcFrom, henv, dif_pos h3]
          exact ⟨none, rfl⟩
      | ok d =>
        rw [whaleRpcFrom, henv, dif_pos h3]
        exact ⟨some d, rfl⟩
    · rw [whaleRpcFrom, dif_neg h3]
      exact ⟨none, rfl⟩

lemma fetchRpcFrom_ok (env : ℕ → RpcAttempt) :
    ∀ (k i : ℕ), 3 - i ≤ k → ∃ d, fetchRpcFrom env i = .ok d := by
  intro k
  induction k with
  | zero =>
    intro i hi
    rw [fetchRpcFrom, dif_neg (by omega)]
    exact ⟨none, rfl⟩
  | succ n ih =>
    intro i hi
    by_cases h3 : i < 3
    · cases henv : env i with
      | exn =>
        rw [fetchRpcFrom, henv, dif_pos h3]
        by_cases h2 : i = 2
        · simp only [fetchRpcBody, h2]
          exact ⟨none, rfl⟩
        · simp only [fetchRpcBody, if_neg h2]
          exact ih (i + 1) (by omega)
      | errResp b =>
        rw [fetchRpcFrom, henv, dif_pos h3]
        by_cases hlt : i < 2
        · simp only [fetchRpcBody, if_pos hlt]
          exact ih (i + 1) (by omega)
        · have h2 : i = 2 := by omega
          simp only [fetchRpcBody, if_neg (by omega : ¬ i < 2), h2]
          exact ⟨none, rfl⟩
      | ok d =>
        rw [fetchRpcFrom, henv, dif_pos h3]
        exact ⟨some d, rfl⟩
    · rw [fetchRpcFrom, dif_neg h3]
      exact ⟨none, rfl⟩

/-- C8: both Gateway clients always return a value and never surface an
error: every run of `whaleRpcFrom` and `fetchRpcFrom` ends in `Except.ok`,
and exhausting the 3-attempt retry budget on persistent failures yields the
empty result. -/
theorem claim_C8 :
    (∀ (env : ℕ → RpcAttempt) (i : ℕ), ∃ d, whaleRpcFrom env i = .ok d)
    ∧ (∀ (env : ℕ → RpcAttempt) (i : ℕ), ∃ d, fetchRpcFrom env i = .ok d)
    ∧ (∀ env : ℕ → RpcAttempt,
        (∀ j, env j = .exn) → whaleRpcFrom env 0 = .ok none)
    ∧ (∀ env : ℕ → RpcAttempt,
        (∀ j, env j = .exn) → fetchRpcFrom env 0 = .ok none) := by
  refine ⟨fun env i => whaleRpcFrom_ok env (3 - i) i le_rfl,
    fun env i => fetchRpcFrom_ok env (3 - i) i le_rfl, ?_, ?_⟩
  · intro env h
    simp [whaleRpcFrom, h]
  · intro env h
    simp [fetchRpcFrom, fetchRpcBody, h]

/-- Witness for C8 at an environment that fails every attempt. -/
theorem claim_C8_witness :
    whaleRpcFrom (fun _ => .exn) 0 = .ok none
    ∧ fetchRpcFrom (fun _ => .exn) 0 = .ok none :=
  ⟨claim_C8.2.2.1 (fun _ => .exn) (fun _ => rfl),
   claim_C8.2.2.2 (fun _ => .exn) (fun _ => rfl)⟩
